import Mathlib

/-!
Shallow embedding of `media/bufferpool/aidl/default/BufferStatus.cpp`
(namespace `aidl::android::hardware::media::bufferpool2::implementation`).

Machine integers are modelled as `Nat` with explicit wrapping where the
source relies on `uint32_t` overflow.  The fast message queue (FMQ)
primitive is modelled as a fixed-capacity FIFO list: `write` appends when
capacity allows and fails otherwise, `read` takes from the front when the
requested count is available and fails otherwise — the contract the source
assumes of the external queue (`availableToRead`, `availableToWrite`,
`read`, `write`).  Fallible reads/writes return `Option`.
-/

namespace BufferPool

/-- Constant `kNumElementsInQueue = 1024*16` from the source. -/
def kNumElementsInQueue : Nat := 1024 * 16

/-- The `uint32_t` modulus, `2^32`. -/
def U32 : Nat := 4294967296

/-- Wrapping `uint32_t` subtraction `a - b` for `a b < 2^32`. -/
def wsub (a b : Nat) : Nat := (a + U32 - b) % U32

/-- Source `isMessageLater(curMsgId, prevMsgId)`:
`curMsgId != prevMsgId && curMsgId - prevMsgId < prevMsgId - curMsgId`
with `uint32_t` wrapping subtraction. -/
def isMessageLater (curMsgId prevMsgId : Nat) : Bool :=
  curMsgId != prevMsgId &&
    decide (wsub curMsgId prevMsgId < wsub prevMsgId curMsgId)

/-- Source `isBufferInRange(from, to, bufferId)`. -/
def isBufferInRange (f t bufferId : Nat) : Bool :=
  if f < t then
    decide (f ≤ bufferId) && decide (bufferId < t)
  else
    decide (f ≤ bufferId) || decide (bufferId < t)

/-- Values of the AIDL `BufferStatus` enum used by the source. -/
inductive BufferStatus where
  | NOT_USED
  | USED
  | TRANSFER_TO
  | TRANSFER_FROM
  | TRANSFER_TIMEOUT
  | INVALIDATION_ACK
deriving DecidableEq, Repr

/-- Record `BufferStatusMessage`; AIDL-default field values are zero. -/
structure BufferStatusMessage where
  transactionId : Nat := 0
  bufferId : Nat := 0
  status : BufferStatus := .NOT_USED
  connectionId : Int := 0
  targetConnectionId : Int := 0
  timestampUs : Int := 0
deriving DecidableEq, Repr

/-- Record `BufferInvalidationMessage`. -/
structure BufferInvalidationMessage where
  messageId : Nat := 0
  fromBufferId : Nat := 0
  toBufferId : Nat := 0
deriving DecidableEq, Repr

/-- The external FMQ primitive: a fixed-capacity FIFO of records. -/
structure Fmq (α : Type) where
  capacity : Nat
  buf : List α
deriving DecidableEq, Repr

namespace Fmq

def availableToRead (q : Fmq α) : Nat := q.buf.length

def availableToWrite (q : Fmq α) : Nat := q.capacity - q.buf.length

/-- FMQ `write(data, count)`: succeeds iff `count` slots are free. -/
def write (q : Fmq α) (msgs : List α) : Option (Fmq α) :=
  if msgs.length ≤ q.availableToWrite then
    some { q with buf := q.buf ++ msgs }
  else
    none

/-- FMQ `read(data, count)`: succeeds iff `count` records are available. -/
def read (q : Fmq α) (count : Nat) : Option (List α × Fmq α) :=
  if count ≤ q.availableToRead then
    some (q.buf.take count, { q with buf := q.buf.drop count })
  else
    none

/-- FMQ `dupeDesc()`: the descriptor, modelled by the queue capacity. -/
def dupeDesc (q : Fmq α) : Nat := q.capacity

end Fmq

/-- Values of `ResultStatus` used by the source. -/
inductive ResultStatus where
  | OK
  | NO_MEMORY
  | CRITICAL_ERROR
deriving DecidableEq, Repr

/-- State of `BufferStatusObserver`: the `mBufferStatusQueues` registry, a map from
`ConnectionId` (int64) to an owned status queue. -/
structure BufferStatusObserver where
  mBufferStatusQueues : List (Int × Fmq BufferStatusMessage)
deriving DecidableEq, Repr

/-- Lookup `mBufferStatusQueues.find(id)` of the registry map. -/
def lookupQueue (l : List (Int × Fmq BufferStatusMessage)) (id : Int) :
    Option (Fmq BufferStatusMessage) :=
  match l with
  | [] => none
  | (k, q) :: rest => if k = id then some q else lookupQueue rest id

/-- Removal `mBufferStatusQueues.erase(id)` of the registry map; keys are unique by
the duplicate check in `observerOpen`, so erasing the first hit suffices. -/
def eraseKey (l : List (Int × Fmq BufferStatusMessage)) (id : Int) :
    List (Int × Fmq BufferStatusMessage) :=
  match l with
  | [] => []
  | (k, q) :: rest => if k = id then rest else (k, q) :: eraseKey rest id

/-- Source `BufferStatusObserver::open(id, fmqDescPtr)`.  `queueOk` models whether
queue construction succeeded and the new queue `isValid()`; the
`std::map::insert` result `second` is false only on a duplicate key, which
the `find` check above it already excludes.  (`open` is a Lean keyword.) -/
def observerOpen (obs : BufferStatusObserver) (id : Int) (queueOk : Bool) :
    ResultStatus × BufferStatusObserver × Option Nat :=
  if (lookupQueue obs.mBufferStatusQueues id).isSome then
    (.CRITICAL_ERROR, obs, none)
  else if !queueOk then
    (.NO_MEMORY, obs, none)
  else
    let queue : Fmq BufferStatusMessage := { capacity := kNumElementsInQueue, buf := [] }
    let fmqDesc := queue.dupeDesc
    if (lookupQueue obs.mBufferStatusQueues id).isSome then
      (.NO_MEMORY, obs, some fmqDesc)
    else
      (.OK, { mBufferStatusQueues := obs.mBufferStatusQueues ++ [(id, queue)] },
       some fmqDesc)

/-- Source `BufferStatusObserver::close(id)`. -/
def observerClose (obs : BufferStatusObserver) (id : Int) :
    ResultStatus × BufferStatusObserver :=
  if (lookupQueue obs.mBufferStatusQueues id).isNone then
    (.CRITICAL_ERROR, obs)
  else
    (.OK, { mBufferStatusQueues := eraseKey obs.mBufferStatusQueues id })

/-- Inner `while (avail > 0)` loop of
`BufferStatusObserver::getBufferStatusChanges` for one registered queue:
reads one record at a time, overwrites its `connectionId` with the registry
key, and appends it to `messages`.  The `Bool` is false when a read failed
despite confirmed availability, which short-circuits the whole call. -/
def drainLoop (id : Int) :
    Nat → Fmq BufferStatusMessage → List BufferStatusMessage →
    List BufferStatusMessage × Fmq BufferStatusMessage × Bool
  | 0, q, messages => (messages, q, true)
  | n + 1, q, messages =>
    match q.read 1 with
    | none => (messages, q, false)
    | some (data, q2) =>
      drainLoop id n q2 (messages ++ data.map (fun m => { m with connectionId := id }))

/-- Source `BufferStatusObserver::getBufferStatusChanges(messages)`: iterates the
registry, draining `availableToRead()` records from each queue; a failed
read returns early, leaving later queues undrained. -/
def getBufferStatusChanges :
    List (Int × Fmq BufferStatusMessage) → List BufferStatusMessage →
    List BufferStatusMessage × List (Int × Fmq BufferStatusMessage)
  | [], messages => (messages, [])
  | (id, q) :: rest, messages =>
    let r := drainLoop id q.availableToRead q messages
    if r.2.2 then
      let r2 := getBufferStatusChanges rest r.1
      (r2.1, (id, r.2.1) :: r2.2)
    else
      (r.1, (id, r.2.1) :: rest)

/-- Channel state `BufferStatusChannel`: `mValid` false means attachment failed and
`mBufferStatusQueue` is the null pointer; valid carries the queue. -/
inductive BufferStatusChannel where
  | invalid
  | valid (queue : Fmq BufferStatusMessage)
deriving DecidableEq, Repr

/-- Source `BufferStatusChannel::isValid()`. -/
def BufferStatusChannel.isValid : BufferStatusChannel → Bool
  | .invalid => false
  | .valid _ => true

/-- The NOT_USED release message built in the write loops of
`postBufferRelease` and `postBufferStatusMessage`; fields the source does
not assign stay at their defaults. -/
def releaseMsg (connectionId : Int) (id : Nat) : BufferStatusMessage :=
  { status := .NOT_USED, bufferId := id, connectionId := connectionId }

/-- The bounded write loop shared by `postBufferRelease` (bound
`min(availableToWrite, pending.size())`) and `postBufferStatusMessage`
(bound `pending.size()`): writes the front pending entry as a NOT_USED
message, then pops it from `pending` and appends it to `posted`.  The
`Bool` is false when a write failed after capacity was confirmed, which
makes the caller return early.  The loop bound never exceeds
`pending.length` at either call site, so the `[]` case is unreachable
from them. -/
def releaseLoop (connectionId : Int) :
    Nat → Fmq BufferStatusMessage → List Nat → List Nat →
    Fmq BufferStatusMessage × List Nat × List Nat × Bool
  | 0, q, pending, posted => (q, pending, posted, true)
  | n + 1, q, pending, posted =>
    match pending with
    | [] => (q, pending, posted, true)
    | id :: rest =>
      match q.write [releaseMsg connectionId id] with
      | none => (q, id :: rest, posted, false)
      | some q2 => releaseLoop connectionId n q2 rest (posted ++ [id])

/-- Source `BufferStatusChannel::postBufferRelease(connectionId, pending, posted)`. -/
def postBufferRelease (ch : BufferStatusChannel) (connectionId : Int)
    (pending posted : List Nat) : BufferStatusChannel × List Nat × List Nat :=
  match ch with
  | .invalid => (ch, pending, posted)
  | .valid q =>
    if 0 < pending.length then
      let avail := min q.availableToWrite pending.length
      let r := releaseLoop connectionId avail q pending posted
      (.valid r.1, r.2.1, r.2.2.1)
    else
      (ch, pending, posted)

/-- Source `BufferStatusChannel::postBufferInvalidateAck(connectionId, invalidateId,
invalidated)`; the returned `Bool` is the `*invalidated` flag on exit. -/
def postBufferInvalidateAck (ch : BufferStatusChannel) (connectionId : Int)
    (invalidateId : Nat) (invalidated : Bool) : BufferStatusChannel × Bool :=
  match ch with
  | .invalid => (ch, invalidated)
  | .valid q =>
    if !invalidated then
      if 0 < q.availableToWrite then
        let message : BufferStatusMessage :=
          { status := .INVALIDATION_ACK, bufferId := invalidateId,
            connectionId := connectionId }
        match q.write [message] with
        | none => (.valid q, invalidated)
        | some q2 => (.valid q2, true)
      else
        (.valid q, invalidated)
    else
      (.valid q, invalidated)

/-- Source `BufferStatusChannel::postBufferStatusMessage(transactionId, bufferId,
status, connectionId, targetId, pending, posted)`. -/
def postBufferStatusMessage (ch : BufferStatusChannel)
    (transactionId bufferId : Nat) (status : BufferStatus)
    (connectionId targetId : Int) (pending posted : List Nat) :
    Bool × BufferStatusChannel × List Nat × List Nat :=
  match ch with
  | .invalid => (false, ch, pending, posted)
  | .valid q =>
    let avail := q.availableToWrite
    let numPending := pending.length
    if numPending + 1 ≤ avail then
      let r := releaseLoop connectionId numPending q pending posted
      if r.2.2.2 then
        let message : BufferStatusMessage :=
          { transactionId := transactionId, bufferId := bufferId,
            status := status, connectionId := connectionId,
            targetConnectionId := targetId, timestampUs := 0 }
        match r.1.write [message] with
        | none => (false, .valid r.1, r.2.1, r.2.2.1)
        | some q2 => (true, .valid q2, r.2.1, r.2.2.1)
      else
        (false, .valid r.1, r.2.1, r.2.2.1)
    else
      (false, ch, pending, posted)

/-- Listener state `BufferInvalidationListener`: invalid means attach failed and the queue
member is the null pointer. -/
inductive BufferInvalidationListener where
  | invalid
  | valid (queue : Fmq BufferInvalidationMessage)
deriving DecidableEq, Repr

/-- Source `BufferInvalidationListener::isValid()`. -/
def BufferInvalidationListener.isValid : BufferInvalidationListener → Bool
  | .invalid => false
  | .valid _ => true

/-- Constructor of `BufferInvalidationListener`: `attachOk` models whether the
queue built from the descriptor `isValid()`; on success it drains and
discards `min(availableToRead(), kNumElementsInQueue)` backlog records. -/
def mkBufferInvalidationListener (attachOk : Bool)
    (q : Fmq BufferInvalidationMessage) : BufferInvalidationListener :=
  if attachOk then
    let avail := min q.availableToRead kNumElementsInQueue
    if 0 < avail then
      match q.read avail with
      | some (_, q2) => .valid q2
      | none => .valid q
    else
      .valid q
  else
    .invalid

/-- Source `BufferInvalidationListener::getInvalidations(messages)`: up to two
passes over `availableToRead`/`read`.  On an invalid listener the source
dereferences the null `mBufferInvalidationQueue` pointer: modelled as
`none` (a fault); a completed call is `some` of the appended message list
and the listener after the reads. -/
def getInvalidations :
    BufferInvalidationListener → List BufferInvalidationMessage →
    Option (List BufferInvalidationMessage × BufferInvalidationListener)
  | .invalid, _ => none
  | .valid q, messages =>
    let avail := min q.availableToRead kNumElementsInQueue
    if 0 < avail then
      match q.read avail with
      | some (temp, q2) => some (messages ++ temp, .valid q2)
      | none =>
        let avail2 := min q.availableToRead kNumElementsInQueue
        if 0 < avail2 then
          match q.read avail2 with
          | some (temp, q2) => some (messages ++ temp, .valid q2)
          | none => some (messages, .valid q)
        else
          some (messages, .valid q)
    else
      some (messages, .valid q)

/-! ### Wraparound arithmetic lemmas -/

/-- Closed form of wrapping `uint32_t` subtraction below the modulus. -/
theorem wsub_eq (a b : Nat) (ha : a < U32) (hb : b < U32) :
    wsub a b = if b ≤ a then a - b else a + U32 - b := by
  simp only [wsub, U32] at *
  split
  · have h : a + 4294967296 - b = a - b + 4294967296 := by omega
    rw [h, Nat.add_mod_right]
    exact Nat.mod_eq_of_lt (by omega)
  · exact Nat.mod_eq_of_lt (by omega)

/-- The two wrapping distances between distinct values sum to the modulus. -/
theorem wsub_add_wsub (a b : Nat) (ha : a < U32) (hb : b < U32) (hne : a ≠ b) :
    wsub a b + wsub b a = U32 := by
  rw [wsub_eq a b ha hb, wsub_eq b a hb ha]
  simp only [U32] at *
  split <;> split <;> omega

/-- Claim C3: for 32-bit values `a ≠ b` whose wrapping distance is not the
antipodal `2^31`, exactly one of `isMessageLater a b` and
`isMessageLater b a` holds; and `isMessageLater cur prev` is true iff
`cur ≠ prev` and the wrapping forward distance is strictly below the
backward distance. -/
theorem isMessageLater_strict_order (a b : Nat) (ha : a < U32) (hb : b < U32) :
    (a ≠ b → wsub a b ≠ 2147483648 →
      (isMessageLater a b = true ↔ isMessageLater b a = false)) ∧
    (isMessageLater a b = true ↔ (a ≠ b ∧ wsub a b < wsub b a)) := by
  constructor
  · intro hne hhalf
    have hsum := wsub_add_wsub a b ha hb hne
    have hU : U32 = 4294967296 := rfl
    simp only [isMessageLater, Bool.and_eq_true, bne_iff_ne, ne_eq,
      decide_eq_true_eq, Bool.and_eq_false_iff, bne_eq_false_iff_eq,
      decide_eq_false_iff_not, not_lt]
    constructor
    · rintro ⟨h1, h2⟩
      right
      omega
    · rintro (h | h)
      · exact absurd h.symm hne
      · refine ⟨hne, ?_⟩
        omega
  · simp only [isMessageLater, Bool.and_eq_true, bne_iff_ne, ne_eq,
      decide_eq_true_eq]

/-- Witness for C3 at `a = 5`, `b = 3`. -/
theorem isMessageLater_strict_order_witness :
    isMessageLater 5 3 = true ↔ isMessageLater 3 5 = false :=
  (isMessageLater_strict_order 5 3 (by decide) (by decide)).1
    (by decide) (by decide)

/-- Claim C4: `isBufferInRange` is the half-open interval test `[f, t)` on
the wrapping ID space — a plain bounds check when `f < t`, and the wrapped
disjunction otherwise — and the spec's size-256 examples hold. -/
theorem isBufferInRange_halfopen_wrap (f t bufferId : Nat) :
    (isBufferInRange f t bufferId = true ↔
      (if f < t then f ≤ bufferId ∧ bufferId < t
       else f ≤ bufferId ∨ bufferId < t)) ∧
    isBufferInRange 250 10 255 = true ∧
    isBufferInRange 250 10 10 = false ∧
    isBufferInRange 250 10 5 = true := by
  refine ⟨?_, by decide, by decide, by decide⟩
  by_cases h : f < t <;> simp [isBufferInRange, h]

/-- Claim C10: the nominally empty range `[x, x)` is classified as the whole
ID space — `isBufferInRange x x id` is true for every `id`. -/
theorem isBufferInRange_empty_range_full (x bufferId : Nat) :
    isBufferInRange x x bufferId = true := by
  simp only [isBufferInRange, lt_irrefl, if_false, Bool.or_eq_true,
    decide_eq_true_eq]
  omega

/-! ### The pending-to-posted write loop -/

/-- Characterization of `releaseLoop` when the bound is covered by both the
pending list and the confirmed queue capacity, as at both call sites: the
first `n` pending entries are written to the queue as NOT_USED messages and
moved to `posted`, in FIFO order, and the loop reports success. -/
theorem releaseLoop_spec (connectionId : Int) (n : Nat)
    (q : Fmq BufferStatusMessage) (pending posted : List Nat)
    (hn : n ≤ pending.length) (hw : n ≤ q.availableToWrite) :
    releaseLoop connectionId n q pending posted =
      ({ capacity := q.capacity,
         buf := q.buf ++ (pending.take n).map (releaseMsg connectionId) },
       pending.drop n, posted ++ pending.take n, true) := by
  induction n generalizing q pending posted with
  | zero => simp [releaseLoop]
  | succ n ih =>
    match pending with
    | [] => simp at hn
    | id :: rest =>
      simp only [Fmq.availableToWrite] at hw
      have hwrite : q.write [releaseMsg connectionId id] =
          some { q with buf := q.buf ++ [releaseMsg connectionId id] } := by
        simp only [Fmq.write, List.length_cons, List.length_nil,
          Fmq.availableToWrite]
        rw [if_pos (by omega)]
      simp only [releaseLoop, hwrite]
      rw [ih ({ q with buf := q.buf ++ [releaseMsg connectionId id] }) rest
        (posted ++ [id]) (by simpa using hn)
        (by simp only [Fmq.availableToWrite, List.length_append]; simp; omega)]
      simp [List.append_assoc]

/-- On a valid channel `postBufferRelease` moves exactly
`min(availableToWrite, pending.size())` entries. -/
theorem postBufferRelease_valid_spec (q : Fmq BufferStatusMessage)
    (connectionId : Int) (pending posted : List Nat) :
    postBufferRelease (.valid q) connectionId pending posted =
      (.valid { capacity := q.capacity,
                buf := q.buf ++
                  ((pending.take (min q.availableToWrite pending.length)).map
                    (releaseMsg connectionId)) },
       pending.drop (min q.availableToWrite pending.length),
       posted ++ pending.take (min q.availableToWrite pending.length)) := by
  by_cases hp : 0 < pending.length
  · simp only [postBufferRelease, if_pos hp,
      releaseLoop_spec connectionId (min q.availableToWrite pending.length) q
        pending posted (min_le_right _ _) (min_le_left _ _)]
  · have hlen : pending = [] := List.length_eq_zero.mp (by omega)
    subst hlen
    simp [postBufferRelease]

/-- On a valid channel with capacity for all
pending releases plus the status message: flushes all pending entries then
writes the status message, returning true. -/
theorem postBufferStatusMessage_success_spec (q : Fmq BufferStatusMessage)
    (transactionId bufferId : Nat) (status : BufferStatus)
    (connectionId targetId : Int) (pending posted : List Nat)
    (h : pending.length + 1 ≤ q.availableToWrite) :
    postBufferStatusMessage (.valid q) transactionId bufferId status
        connectionId targetId pending posted =
      (true,
       .valid { capacity := q.capacity,
                buf := q.buf ++ pending.map (releaseMsg connectionId) ++
                  [{ transactionId := transactionId, bufferId := bufferId,
                     status := status, connectionId := connectionId,
                     targetConnectionId := targetId, timestampUs := 0 }] },
       [], posted ++ pending) := by
  have hloop := releaseLoop_spec connectionId pending.length q pending posted
    le_rfl (by omega)
  simp only [Fmq.availableToWrite] at h
  have hwrite :
      Fmq.write
        { capacity := q.capacity,
          buf := q.buf ++ pending.map (releaseMsg connectionId) }
        [{ transactionId := transactionId, bufferId := bufferId,
           status := status, connectionId := connectionId,
           targetConnectionId := targetId, timestampUs := 0 }] =
      some { capacity := q.capacity,
             buf := q.buf ++ pending.map (releaseMsg connectionId) ++
               [{ transactionId := transactionId, bufferId := bufferId,
                  status := status, connectionId := connectionId,
                  targetConnectionId := targetId, timestampUs := 0 }] } := by
    simp only [Fmq.write, Fmq.availableToWrite, List.length_append,
      List.length_map, List.length_cons, List.length_nil]
    rw [if_pos (by omega)]
  simp only [postBufferStatusMessage, Fmq.availableToWrite]
  rw [if_pos (by omega)]
  simp only [hloop, List.take_length, List.drop_length]
  simp [hwrite]

/-- On a valid channel with insufficient capacity `postBufferStatusMessage`
writes nothing and returns false. -/
theorem postBufferStatusMessage_fail_spec (q : Fmq BufferStatusMessage)
    (transactionId bufferId : Nat) (status : BufferStatus)
    (connectionId targetId : Int) (pending posted : List Nat)
    (h : q.availableToWrite < pending.length + 1) :
    postBufferStatusMessage (.valid q) transactionId bufferId status
        connectionId targetId pending posted =
      (false, .valid q, pending, posted) := by
  simp only [postBufferStatusMessage]
  rw [if_neg (by omega)]

/-- Claim C1: on a valid channel with pending size `P`,
`postBufferStatusMessage` either (capacity at least `P + 1`) moves all `P`
pending entries to `posted` in FIFO order as NOT_USED queue messages, then
writes the status message after them and returns true, or (capacity below
`P + 1`) writes nothing, returns false, and leaves `pending`/`posted`
unchanged. -/
theorem postBufferStatusMessage_all_or_nothing
    (q : Fmq BufferStatusMessage) (transactionId bufferId : Nat)
    (status : BufferStatus) (connectionId targetId : Int)
    (pending posted : List Nat) :
    (pending.length + 1 ≤ q.availableToWrite →
      postBufferStatusMessage (.valid q) transactionId bufferId status
          connectionId targetId pending posted =
        (true,
         .valid { capacity := q.capacity,
                  buf := q.buf ++ pending.map (releaseMsg connectionId) ++
                    [{ transactionId := transactionId, bufferId := bufferId,
                       status := status, connectionId := connectionId,
                       targetConnectionId := targetId, timestampUs := 0 }] },
         [], posted ++ pending)) ∧
    (q.availableToWrite < pending.length + 1 →
      postBufferStatusMessage (.valid q) transactionId bufferId status
          connectionId targetId pending posted =
        (false, .valid q, pending, posted)) :=
  ⟨postBufferStatusMessage_success_spec q transactionId bufferId status
      connectionId targetId pending posted,
   postBufferStatusMessage_fail_spec q transactionId bufferId status
      connectionId targetId pending posted⟩

/-- Witness for C1: both branches at concrete inputs. -/
theorem postBufferStatusMessage_all_or_nothing_witness :
    postBufferStatusMessage (.valid ⟨3, []⟩) 1 2 .USED 10 11 [7] [] =
      (true,
       .valid ⟨3, [releaseMsg 10 7,
         { transactionId := 1, bufferId := 2, status := .USED,
           connectionId := 10, targetConnectionId := 11, timestampUs := 0 }]⟩,
       [], [7]) ∧
    postBufferStatusMessage (.valid ⟨1, []⟩) 1 2 .USED 10 11 [7] [] =
      (false, .valid ⟨1, []⟩, [7], []) :=
  ⟨(postBufferStatusMessage_all_or_nothing ⟨3, []⟩ 1 2 .USED 10 11 [7] []).1
      (by decide),
   (postBufferStatusMessage_all_or_nothing ⟨1, []⟩ 1 2 .USED 10 11 [7] []).2
      (by decide)⟩

/-- Claim C2: both `postBufferRelease` and `postBufferStatusMessage` leave
`posted` extended by a prefix of the entry-time `pending` list in original
order, with `pending` the remaining suffix; moved entries are exactly the
ones written to the queue, and in `postBufferRelease` on a valid channel
the number moved is exactly `min(availableToWrite(), pending.size())`. -/
theorem pending_to_posted_fifo_order (ch : BufferStatusChannel)
    (connectionId targetId : Int) (transactionId bufferId : Nat)
    (status : BufferStatus) (pending posted : List Nat) :
    (∃ k, k ≤ pending.length ∧
      (postBufferRelease ch connectionId pending posted).2 =
        (pending.drop k, posted ++ pending.take k) ∧
      ∀ q, ch = BufferStatusChannel.valid q →
        k = min q.availableToWrite pending.length ∧
        (postBufferRelease ch connectionId pending posted).1 =
          .valid { capacity := q.capacity,
                   buf := q.buf ++ (pending.take k).map
                     (releaseMsg connectionId) }) ∧
    (∃ k, k ≤ pending.length ∧
      (postBufferStatusMessage ch transactionId bufferId status connectionId
          targetId pending posted).2.2 =
        (pending.drop k, posted ++ pending.take k)) := by
  cases ch with
  | invalid =>
    refine ⟨⟨0, Nat.zero_le _, by simp [postBufferRelease], ?_⟩,
      ⟨0, Nat.zero_le _, by simp [postBufferStatusMessage]⟩⟩
    intro q hq
    simp at hq
  | valid q =>
    refine ⟨⟨min q.availableToWrite pending.length, min_le_right _ _, ?_, ?_⟩, ?_⟩
    · rw [postBufferRelease_valid_spec]
    · intro q2 hq
      cases hq
      exact ⟨rfl, by rw [postBufferRelease_valid_spec]⟩
    · by_cases h : pending.length + 1 ≤ q.availableToWrite
      · exact ⟨pending.length, le_rfl, by
          rw [postBufferStatusMessage_success_spec q transactionId bufferId
            status connectionId targetId pending posted h]
          simp⟩
      · exact ⟨0, Nat.zero_le _, by
          rw [postBufferStatusMessage_fail_spec q transactionId bufferId
            status connectionId targetId pending posted (by omega)]
          simp⟩

/-- Witness for C2 at a concrete channel (capacity 1) and `pending = [4,5]`. -/
theorem pending_to_posted_fifo_order_witness :
    (∃ k, k ≤ ([4, 5] : List Nat).length ∧
      (postBufferRelease (.valid ⟨1, []⟩) 10 [4, 5] []).2 =
        (([4, 5] : List Nat).drop k, ([] : List Nat) ++ [4, 5].take k) ∧
      ∀ q, BufferStatusChannel.valid ⟨1, []⟩ = BufferStatusChannel.valid q →
        k = min q.availableToWrite ([4, 5] : List Nat).length ∧
        (postBufferRelease (.valid ⟨1, []⟩) 10 [4, 5] []).1 =
          .valid { capacity := q.capacity,
                   buf := q.buf ++ (([4, 5] : List Nat).take k).map
                     (releaseMsg 10) }) ∧
    (∃ k, k ≤ ([4, 5] : List Nat).length ∧
      (postBufferStatusMessage (.valid ⟨1, []⟩) 1 2 .USED 10 11 [4, 5] []).2.2 =
        (([4, 5] : List Nat).drop k, ([] : List Nat) ++ [4, 5].take k)) :=
  pending_to_posted_fifo_order (.valid ⟨1, []⟩) 10 11 1 2 .USED [4, 5] []

/-! ### Observer registry and drain -/

/-- Claim C6: `observerOpen` returns CRITICAL_ERROR and leaves the registry
unchanged on a duplicate id, NO_MEMORY when queue construction fails, and
otherwise registers a fresh queue of capacity 16384 under the id, writes
out its descriptor, and returns OK; `observerClose` returns CRITICAL_ERROR
and leaves the registry unchanged on an unregistered id, and otherwise
removes the id's queue and returns OK. -/
theorem observer_open_close_registry (obs : BufferStatusObserver) (id : Int)
    (queueOk : Bool) :
    ((lookupQueue obs.mBufferStatusQueues id).isSome = true →
      observerOpen obs id queueOk = (.CRITICAL_ERROR, obs, none)) ∧
    ((lookupQueue obs.mBufferStatusQueues id).isSome = false →
      queueOk = false →
      observerOpen obs id queueOk = (.NO_MEMORY, obs, none)) ∧
    ((lookupQueue obs.mBufferStatusQueues id).isSome = false →
      queueOk = true →
      observerOpen obs id queueOk =
        (.OK,
         { mBufferStatusQueues :=
             obs.mBufferStatusQueues ++ [(id, ⟨kNumElementsInQueue, []⟩)] },
         some kNumElementsInQueue)) ∧
    ((lookupQueue obs.mBufferStatusQueues id).isSome = false →
      observerClose obs id = (.CRITICAL_ERROR, obs)) ∧
    ((lookupQueue obs.mBufferStatusQueues id).isSome = true →
      observerClose obs id =
        (.OK, { mBufferStatusQueues := eraseKey obs.mBufferStatusQueues id })) := by
  refine ⟨fun h => ?_, fun h hq => ?_, fun h hq => ?_, fun h => ?_, fun h => ?_⟩
  · simp [observerOpen, h]
  · simp [observerOpen, h, hq]
  · simp [observerOpen, h, hq, Fmq.dupeDesc]
  · have h2 : (lookupQueue obs.mBufferStatusQueues id).isNone = true := by
      cases hl : lookupQueue obs.mBufferStatusQueues id <;> simp_all
    simp [observerClose, h2]
  · have h2 : (lookupQueue obs.mBufferStatusQueues id).isNone = false := by
      cases hl : lookupQueue obs.mBufferStatusQueues id <;> simp_all
    simp [observerClose, h2]

/-- Witness for C6 on concrete registries. -/
theorem observer_open_close_registry_witness :
    observerOpen ⟨[(5, ⟨kNumElementsInQueue, []⟩)]⟩ 5 true =
      (.CRITICAL_ERROR, ⟨[(5, ⟨kNumElementsInQueue, []⟩)]⟩, none) ∧
    observerOpen ⟨[]⟩ 5 false = (.NO_MEMORY, ⟨[]⟩, none) ∧
    observerOpen ⟨[]⟩ 5 true =
      (.OK, ⟨[(5, ⟨kNumElementsInQueue, []⟩)]⟩, some kNumElementsInQueue) ∧
    observerClose ⟨[]⟩ 5 = (.CRITICAL_ERROR, ⟨[]⟩) ∧
    observerClose ⟨[(5, ⟨kNumElementsInQueue, []⟩)]⟩ 5 = (.OK, ⟨[]⟩) :=
  ⟨(observer_open_close_registry ⟨[(5, ⟨kNumElementsInQueue, []⟩)]⟩ 5 true).1
      (by decide),
   (observer_open_close_registry ⟨[]⟩ 5 false).2.1 (by decide) rfl,
   (observer_open_close_registry ⟨[]⟩ 5 true).2.2.1 (by decide) rfl,
   (observer_open_close_registry ⟨[]⟩ 5 true).2.2.2.1 (by decide),
   (observer_open_close_registry ⟨[(5, ⟨kNumElementsInQueue, []⟩)]⟩ 5
      true).2.2.2.2 (by decide)⟩

/-- Characterization of the per-queue drain loop when the bound is the
queue's available count: every record is appended in FIFO order with its
`connectionId` overwritten by the registry key, and the loop succeeds. -/
theorem drainLoop_spec (id : Int) (n : Nat) (q : Fmq BufferStatusMessage)
    (messages : List BufferStatusMessage) (hn : n ≤ q.buf.length) :
    drainLoop id n q messages =
      (messages ++ (q.buf.take n).map (fun m => { m with connectionId := id }),
       { capacity := q.capacity, buf := q.buf.drop n }, true) := by
  induction n generalizing q messages with
  | zero => simp [drainLoop]
  | succ n ih =>
    match q, hn with
    | ⟨cap, m :: rest⟩, hn =>
      have hread : Fmq.read ⟨cap, m :: rest⟩ 1 =
          some ([m], ⟨cap, rest⟩) := by
        simp [Fmq.read, Fmq.availableToRead]
      simp only [drainLoop, hread]
      rw [ih ⟨cap, rest⟩ _ (by simpa using hn)]
      simp

/-- Claim C7: draining appends, for every registered connection in registry
order, exactly the messages written to that connection's queue, in FIFO
order, each with its `connectionId` field overwritten by the `ConnectionId`
the queue is registered under; every queue is left empty. -/
theorem getBufferStatusChanges_drains_all_tagged
    (queues : List (Int × Fmq BufferStatusMessage))
    (messages : List BufferStatusMessage) :
    getBufferStatusChanges queues messages =
      (messages ++ queues.flatMap (fun p =>
        p.2.buf.map (fun m => { m with connectionId := p.1 })),
       queues.map (fun p => (p.1, { capacity := p.2.capacity, buf := [] }))) := by
  induction queues generalizing messages with
  | nil => simp [getBufferStatusChanges]
  | cons p rest ih =>
    obtain ⟨id, q⟩ := p
    simp only [getBufferStatusChanges, Fmq.availableToRead,
      drainLoop_spec id q.buf.length q messages le_rfl,
      List.take_length, List.drop_length, if_true]
    rw [ih]
    simp [List.append_assoc]

/-! ### Invalidation ack -/

/-- Claim C8: `postBufferInvalidateAck` writes exactly one
INVALIDATION_ACK message (carrying `invalidateId` as `bufferId` and the
given `connectionId`) and flips the flag to true when the channel is valid,
the flag is false and a write slot is free; in every other case (flag
already true, queue full, channel invalid) it changes nothing, so a later
call can retry. -/
theorem postBufferInvalidateAck_once (q : Fmq BufferStatusMessage)
    (connectionId : Int) (invalidateId : Nat) (invalidated : Bool) :
    (invalidated = false → 0 < q.availableToWrite →
      postBufferInvalidateAck (.valid q) connectionId invalidateId invalidated =
        (.valid { capacity := q.capacity,
                  buf := q.buf ++ [{ status := .INVALIDATION_ACK, bufferId := invalidateId, connectionId := connectionId }] },
         true)) ∧
    (invalidated = true →
      postBufferInvalidateAck (.valid q) connectionId invalidateId invalidated =
        (.valid q, invalidated)) ∧
    (q.availableToWrite = 0 →
      postBufferInvalidateAck (.valid q) connectionId invalidateId invalidated =
        (.valid q, invalidated)) ∧
    postBufferInvalidateAck .invalid connectionId invalidateId invalidated =
      (.invalid, invalidated) := by
  refine ⟨fun hf hw => ?_, fun hf => ?_, fun hw => ?_, rfl⟩
  · subst hf
    have hwrite : q.write [{ status := .INVALIDATION_ACK, bufferId := invalidateId, connectionId := connectionId }] =
        some { q with buf := q.buf ++ [{ status := .INVALIDATION_ACK, bufferId := invalidateId, connectionId := connectionId }] } := by
      simp only [Fmq.write, List.length_cons, List.length_nil]
      rw [if_pos (by omega)]
    simp [postBufferInvalidateAck, if_pos hw, hwrite]
  · subst hf
    simp [postBufferInvalidateAck]
  · cases invalidated <;> simp [postBufferInvalidateAck, hw]

/-- Witness for C8: the success branch and the already-acked branch at a
concrete queue. -/
theorem postBufferInvalidateAck_once_witness :
    postBufferInvalidateAck (.valid ⟨1, []⟩) 10 7 false =
      (.valid ⟨1, [{ status := .INVALIDATION_ACK, bufferId := 7, connectionId := 10 }]⟩, true) ∧
    postBufferInvalidateAck (.valid ⟨1, []⟩) 10 7 true =
      (.valid ⟨1, []⟩, true) :=
  ⟨(postBufferInvalidateAck_once ⟨1, []⟩ 10 7 false).1 rfl (by decide),
   (postBufferInvalidateAck_once ⟨1, []⟩ 10 7 true).2.1 rfl⟩

/-! ### Invalidation listener -/

/-- Claim C5 (code bug): on a listener whose attachment failed
(`isValid() == false`), `getInvalidations` does not return an empty
sequence as the spec states — the source never checks `mValid` and
dereferences the null `mBufferInvalidationQueue` member, modelled by the
faulting result `none`. -/
theorem getInvalidations_invalid_channel_faults
    (q : Fmq BufferInvalidationMessage)
    (messages : List BufferInvalidationMessage) :
    (mkBufferInvalidationListener false q).isValid = false ∧
    getInvalidations (mkBufferInvalidationListener false q) messages = none :=
  ⟨rfl, rfl⟩

/-- Claim C9: constructing a listener over a broadcast queue holding `K ≤
capacity` backlog records drains and discards all of them, so an immediate
`getInvalidations` reports zero invalidations (it appends nothing). -/
theorem listener_drains_backlog_on_construction
    (q : Fmq BufferInvalidationMessage)
    (messages : List BufferInvalidationMessage)
    (hcap : q.capacity = kNumElementsInQueue)
    (hK : q.buf.length ≤ q.capacity) :
    getInvalidations (mkBufferInvalidationListener true q) messages =
      some (messages, .valid { capacity := q.capacity, buf := [] }) := by
  obtain ⟨cap, buf⟩ := q
  simp only [Fmq.capacity] at hcap
  simp only [Fmq.capacity, Fmq.buf] at hK
  have hmin : min (Fmq.availableToRead ⟨cap, buf⟩) kNumElementsInQueue =
      buf.length := by
    simp only [Fmq.availableToRead]
    omega
  have hmk : mkBufferInvalidationListener true ⟨cap, buf⟩ =
      .valid ⟨cap, []⟩ := by
    simp only [mkBufferInvalidationListener, if_true, hmin]
    by_cases h0 : 0 < buf.length
    · have hread : Fmq.read ⟨cap, buf⟩ buf.length =
          some (buf.take buf.length, ⟨cap, buf.drop buf.length⟩) := by
        simp [Fmq.read, Fmq.availableToRead]
      rw [if_pos h0, hread]
      simp [List.drop_length]
    · have hb : buf = [] := List.length_eq_zero.mp (by omega)
      subst hb
      simp
  rw [hmk]
  simp [getInvalidations, Fmq.availableToRead]

/-- Witness for C9 at a one-record backlog. -/
theorem listener_drains_backlog_on_construction_witness :
    getInvalidations
        (mkBufferInvalidationListener true
          ⟨kNumElementsInQueue, [{ messageId := 1, fromBufferId := 2, toBufferId := 3 }]⟩) [] =
      some ([], .valid ⟨kNumElementsInQueue, []⟩) :=
  listener_drains_backlog_on_construction
    ⟨kNumElementsInQueue, [{ messageId := 1, fromBufferId := 2, toBufferId := 3 }]⟩ [] rfl
    (by decide)

end BufferPool
